import Mathlib

/-!
Shallow embedding of the IntrusionNet feedback loop (src/main.py) and proofs
about its orchestration behaviour: the completion-sentinel check, the polling
state machine, the action executor with its artifact files, and the turn
alternation invariant of the main loop.
-/

namespace IntrusionNet

/-- Role of a turn in the conversation thread: the local requester (the Python
process, sending user messages) or the remote oracle (the assistant). -/
inductive Role where
  | requester
  | oracle
deriving DecidableEq, Repr

/-- One turn of the conversation: a role together with its text content. -/
structure Turn where
  role : Role
  content : String
deriving DecidableEq, Repr

/-- Model of the Python str.strip method: drop whitespace characters from both
ends of the string. -/
def pyStrip (s : String) : String :=
  String.mk (((s.data.dropWhile Char.isWhitespace).reverse.dropWhile Char.isWhitespace).reverse)

/-- Model of the Python str.lower method: map every character to lower case. -/
def pyLower (s : String) : String :=
  String.mk (s.data.map Char.toLower)

/-- src/main.py lines 97-101: the pen test is complete when the stripped,
lower-cased message equals the literal sentinel "done". -/
def is_pen_test_complete (message : String) : Bool :=
  pyLower (pyStrip message) == "done"

/-- One step of the whitespace split used to model the Python str.split method
with no separator argument, consumed by a right fold over the characters.  The
accumulator carries the word currently being built and the list of completed
words to the right. -/
def splitStep (c : Char) (acc : List Char × List (List Char)) : List Char × List (List Char) :=
  if c.isWhitespace then
    if acc.1.isEmpty then acc else ([], acc.1 :: acc.2)
  else (c :: acc.1, acc.2)

/-- Flush the pending word of the split accumulator. -/
def splitFinish (acc : List Char × List (List Char)) : List (List Char) :=
  if acc.1.isEmpty then acc.2 else acc.1 :: acc.2

/-- Model of the Python str.split method with no argument: split on runs of
whitespace, discarding empty tokens (so a whitespace-only string yields the
empty list). -/
def pySplit (s : String) : List String :=
  (splitFinish (s.data.foldr splitStep ([], []))).map (fun w => String.mk w)

/-- A capture time, as produced by datetime.now in src/main.py line 118. -/
structure DateTime where
  year : Nat
  month : Nat
  day : Nat
  hour : Nat
  minute : Nat
  second : Nat
deriving DecidableEq, Repr

/-- Zero-pad a number to at least two decimal digits, as the strftime
directives for month, day, hour, minute and second do. -/
def pad2 (n : Nat) : String :=
  if n < 10 then "0" ++ Nat.repr n else Nat.repr n

/-- Zero-pad a number to at least four decimal digits, as the strftime year
directive does for years in the usual range. -/
def pad4 (n : Nat) : String :=
  if n < 10 then "000" ++ Nat.repr n
  else if n < 100 then "00" ++ Nat.repr n
  else if n < 1000 then "0" ++ Nat.repr n
  else Nat.repr n

/-- Model of strftime with format %Y%m%d_%H%M%S (src/main.py line 118). -/
def strftimeYmdHMS (t : DateTime) : String :=
  pad4 t.year ++ pad2 t.month ++ pad2 t.day ++ "_" ++ pad2 t.hour ++ pad2 t.minute ++ pad2 t.second

/-- Outcome of the subprocess.Popen call in src/main.py line 126.  The command
runs under a shell with stderr redirected into stdout, so a resolvable shell
yields one merged, ordered stream of output lines (an unresolvable command
token merely makes the shell print an error line into that stream) together
with an exit code.  If the process-creation call itself raises, control jumps
to the except clauses of lines 130-137 before the artifact file is opened. -/
inductive LaunchOutcome where
  | started (lines : List String) (exitCode : Int)
  | launchFailed
deriving DecidableEq, Repr

/-- What execute_command left behind when it returned: the filename it
returns, whether the artifact file was actually created on disk, and the
lines written to it. -/
structure ExecResult where
  filename : String
  artifactCreated : Bool
  artifactLines : List String
deriving DecidableEq, Repr

/-- Result of a call to execute_command.  indexError models the uncaught
Python IndexError raised by command.split()[0] at src/main.py line 117: it
happens before the try block of line 120, so it is not converted into any of
the logged error signals and no artifact file is created. -/
inductive ExecOutcome where
  | indexError
  | returned (r : ExecResult)
deriving DecidableEq, Repr

/-- One iteration of the capture loop of src/main.py lines 127-129: the line
that just arrived on the merged stream is appended to the file. -/
def captureStep (file : List String) (line : String) : List String :=
  file ++ [line]

/-- The whole capture loop: every line of the merged stream, folded through
captureStep in arrival order. -/
def captureRun (lines : List String) : List String :=
  lines.foldl captureStep []

/-- File content after the first i lines of the stream have arrived, before
the child process has exited: the capture loop has already run captureStep on
exactly those lines. -/
def fileAfter (lines : List String) (i : Nat) : List String :=
  (lines.take i).foldl captureStep []

/-- src/main.py lines 111-138.  The leading token is command.split()[0] (an
uncaught IndexError when the split is empty); the filename interpolates that
token with the strftime timestamp; on a successful launch the artifact file is
created and filled by the capture loop; when Popen raises, the with statement
of line 126 never reaches the open call, so no file is created, yet line 138
still returns the filename. -/
def execute_command (command : String) (now : DateTime) (launch : LaunchOutcome) : ExecOutcome :=
  match pySplit command with
  | [] => ExecOutcome.indexError
  | base_command :: _ =>
    let filename := base_command ++ "_results_" ++ strftimeYmdHMS now ++ ".txt"
    match launch with
    | LaunchOutcome.started lines _exitCode =>
        ExecOutcome.returned ⟨filename, true, captureRun lines⟩
    | LaunchOutcome.launchFailed =>
        ExecOutcome.returned ⟨filename, false, []⟩

/-- Observable events of one cycle of the main loop (src/main.py lines
161-169), in program order. -/
inductive Event where
  | execCall (cmd : String)
  | execIndexError
  | artifactClosed (filename : String)
  | artifactRead (filename : String)
  | readFailed (filename : String)
  | submitTurn (content : String)
  | startRun
  | loopDone
deriving DecidableEq, Repr

/-- Number of calls to execute_command recorded in an event list. -/
def countExec (es : List Event) : Nat :=
  es.countP (fun e => match e with | Event.execCall _ => true | _ => false)

/-- Number of run creations recorded in an event list. -/
def countRun (es : List Event) : Nat :=
  es.countP (fun e => match e with | Event.startRun => true | _ => false)

/-- One cycle of the main loop, src/main.py lines 161-169, as the list of
events it performs in order.  When the sentinel check succeeds the loop breaks
(loopDone) without touching the executor.  Otherwise execute_command runs: an
IndexError escapes uncaught; a created artifact is closed by the end of the
with statement inside execute_command, then reopened and read by line 166, its
content submitted by line 168 and a new run started by line 169; a missing
artifact makes the open call of line 166 raise an uncaught FileNotFoundError
(readFailed), so no turn is submitted and no run is started. -/
def cycleTrace (message_content : String) (now : DateTime) (launch : LaunchOutcome) : List Event :=
  if is_pen_test_complete message_content then
    [Event.loopDone]
  else
    match execute_command message_content now launch with
    | ExecOutcome.indexError => [Event.execCall message_content, Event.execIndexError]
    | ExecOutcome.returned r =>
        if r.artifactCreated then
          [Event.execCall message_content, Event.artifactClosed r.filename,
           Event.artifactRead r.filename,
           Event.submitTurn (String.join r.artifactLines), Event.startRun]
        else
          [Event.execCall message_content, Event.readFailed r.filename]

/-- Whether one iteration of the inner polling loop (src/main.py lines
152-159) exits the loop: the only break is guarded by the comparison with the
literal "completed"; every other status value falls through to the sleep and
is polled again. -/
def pollBreaks (status : String) : Bool :=
  status == "completed"

/-- The inner polling loop run for at most fuel iterations, starting at poll
index i over a stream of observed statuses: some n means the loop broke at
poll n, none means it was still polling when the fuel ran out. -/
def pollLoop (status : Nat → String) : Nat → Nat → Option Nat
  | 0, _ => none
  | fuel + 1, i => if pollBreaks (status i) then some i else pollLoop status fuel (i + 1)

/-- A message of the thread as seen by src/main.py lines 103-109: the id of
the assistant that authored it (none for user messages) and its text. -/
structure Message where
  assistant_id : Option String
  text : String
deriving DecidableEq, Repr

/-- src/main.py lines 103-109: keep only the messages authored by the given
assistant. -/
def get_assistant_responses (messages : List Message) (assistant_id : String) : List Message :=
  messages.filter (fun m => m.assistant_id == some assistant_id)

/-- The body of the completed branch of the polling loop, src/main.py lines
154-158.  message_content is only assigned when the filtered response list is
nonempty; the break of line 158 runs unconditionally, so with an empty list
the previous binding (none on the very first cycle, where reading it at line
161 raises NameError; otherwise the stale text of the previous cycle) is what
the loop continues with.  No error value exists in the codomain because the
code signals none. -/
def completedBranch (assistant_texts : List String) (message_content : Option String) :
    Option String :=
  match assistant_texts with
  | [] => message_content
  | m :: _ => some m

/-- State of the orchestrator: the turn list of the thread, how many actions
have been executed, and how many run requests are currently outstanding. -/
structure LoopState where
  turns : List Turn
  executedCount : Nat
  outstandingRuns : Nat
deriving DecidableEq, Repr

/-- State after src/main.py lines 146-147: the objective has been submitted as
the first requester turn and one run has been created. -/
def initState (objective : String) : LoopState :=
  { turns := [{ role := Role.requester, content := objective }],
    executedCount := 0, outstandingRuns := 1 }

/-- The inner polling loop completing: the outstanding run reaches a terminal
state and the oracle turn it produced becomes visible in the thread. -/
def oracleStep (st : LoopState) (response : String) : LoopState :=
  { turns := st.turns ++ [{ role := Role.oracle, content := response }],
    executedCount := st.executedCount,
    outstandingRuns := st.outstandingRuns - 1 }

/-- src/main.py lines 165-169 on the non-terminal path: the action is
executed, the artifact content is submitted as a requester turn, and a new run
is created. -/
def requesterStep (st : LoopState) (fileContent : String) : LoopState :=
  { turns := st.turns ++ [{ role := Role.requester, content := fileContent }],
    executedCount := st.executedCount + 1,
    outstandingRuns := st.outstandingRuns + 1 }

/-- The main loop of src/main.py lines 150-169, driven by a script: one entry
per cycle, carrying the oracle response observed for that cycle and the output
lines of the command execution that would follow it.  Returns the final state
and whether the loop ended through the sentinel check (true) or the script ran
out while it was still waiting (false). -/
def runLoop : List (String × List String) → LoopState → LoopState × Bool
  | [], st => (st, false)
  | (response, out) :: rest, st =>
    let st1 := oracleStep st response
    if is_pen_test_complete response then (st1, true)
    else runLoop rest (requesterStep st1 (String.join out))

/-- Every state the main loop passes through, in order, for the same script. -/
def visitedStates : List (String × List String) → LoopState → List LoopState
  | [], st => [st]
  | (response, out) :: rest, st =>
    let st1 := oracleStep st response
    if is_pen_test_complete response then [st, st1]
    else st :: st1 :: visitedStates rest (requesterStep st1 (String.join out))

/-- The role sequence of a turn list. -/
def rolesOf (ts : List Turn) : List Role :=
  ts.map Turn.role

/-- No two adjacent entries of the role list are both oracle roles. -/
def noConsecOracle (roles : List Role) : Bool :=
  (roles.zip roles.tail).all (fun p => !(p.1 == Role.oracle && p.2 == Role.oracle))

/-- A fixed capture time used for concrete evaluations. -/
def dt0 : DateTime :=
  { year := 2024, month := 1, day := 2, hour := 3, minute := 4, second := 5 }

lemma digitChar_isDigit (k : Nat) (h : k < 10) : (Nat.digitChar k).isDigit = true := by
  interval_cases k <;> decide

lemma toDigitsCore_length_eq (fuel : Nat) :
    ∀ (n : Nat) (ds : List Char), n < fuel →
      (Nat.toDigitsCore 10 fuel n ds).length = Nat.log 10 n + 1 + ds.length := by
  induction fuel with
  | zero => intro n ds h; omega
  | succ fuel ih =>
    intro n ds _h
    simp only [Nat.toDigitsCore]
    by_cases hdiv : n / 10 = 0
    · have hn : n < 10 := by omega
      have hlog : Nat.log 10 n = 0 := Nat.log_eq_zero_iff.2 (Or.inl hn)
      simp [hdiv, hlog]
      omega
    · have hge : 10 ≤ n := by omega
      have hlt : n / 10 < fuel := by omega
      have hlog : Nat.log 10 n = Nat.log 10 (n / 10) + 1 := by
        have h1 : Nat.log 10 (n / 10) = Nat.log 10 n - 1 := Nat.log_div_base 10 n
        have h2 : 0 < Nat.log 10 n := Nat.log_pos (by norm_num) hge
        omega
      rw [if_neg hdiv, ih (n / 10) _ hlt, hlog]
      simp
      omega

lemma toDigitsCore_all_digits (fuel : Nat) :
    ∀ (n : Nat) (ds : List Char), ds.all Char.isDigit = true →
      (Nat.toDigitsCore 10 fuel n ds).all Char.isDigit = true := by
  induction fuel with
  | zero => intro n ds h; simpa [Nat.toDigitsCore] using h
  | succ fuel ih =>
    intro n ds h
    simp only [Nat.toDigitsCore]
    have hd : (Nat.digitChar (n % 10)).isDigit = true :=
      digitChar_isDigit _ (Nat.mod_lt _ (by norm_num))
    by_cases hdiv : n / 10 = 0
    · simp [hdiv, hd, h]
    · rw [if_neg hdiv]
      exact ih _ _ (by simp [hd, h])

lemma repr_length_eq (n : Nat) : (Nat.repr n).length = Nat.log 10 n + 1 := by
  have h := toDigitsCore_length_eq (n + 1) n [] (Nat.lt_succ_self n)
  simpa [Nat.repr, Nat.toDigits, String.length, List.asString] using h

lemma repr_all_digits (n : Nat) : (Nat.repr n).data.all Char.isDigit = true := by
  have h := toDigitsCore_all_digits (n + 1) n [] (by decide)
  simpa [Nat.repr, Nat.toDigits, List.asString] using h

lemma pad2_shape (n : Nat) (h : n < 100) :
    (pad2 n).length = 2 ∧ (pad2 n).data.all Char.isDigit = true := by
  unfold pad2
  by_cases h10 : n < 10
  · rw [if_pos h10]
    constructor
    · have hlog : Nat.log 10 n = 0 := Nat.log_eq_zero_iff.2 (Or.inl h10)
      simp [String.length_append, repr_length_eq, hlog]
      decide
    · simp [String.data_append, repr_all_digits]
  · rw [if_neg h10]
    constructor
    · have h1 : 0 < Nat.log 10 n := Nat.log_pos (by norm_num) (by omega)
      have h2 : Nat.log 10 n < 2 := by
        have := (Nat.lt_pow_iff_log_lt (by norm_num : 1 < 10) (by omega : n ≠ 0)).1
          (by omega : n < 10 ^ 2)
        exact this
      rw [repr_length_eq]
      omega
    · exact repr_all_digits n

lemma pad4_shape (n : Nat) (h1 : 1000 ≤ n) (h2 : n < 10000) :
    (pad4 n).length = 4 ∧ (pad4 n).data.all Char.isDigit = true := by
  unfold pad4
  rw [if_neg (by omega), if_neg (by omega), if_neg (by omega)]
  constructor
  · have hlo : 3 ≤ Nat.log 10 n :=
      (Nat.pow_le_iff_le_log (by norm_num : 1 < 10) (by omega : n ≠ 0)).1
        (by omega : 10 ^ 3 ≤ n)
    have hhi : Nat.log 10 n < 4 :=
      (Nat.lt_pow_iff_log_lt (by norm_num : 1 < 10) (by omega : n ≠ 0)).1
        (by omega : n < 10 ^ 4)
    rw [repr_length_eq]
    omega
  · exact repr_all_digits n

lemma foldr_splitStep_ws (cs : List Char) (h : cs.all Char.isWhitespace = true) :
    cs.foldr splitStep ([], []) = ([], []) := by
  induction cs with
  | nil => rfl
  | cons c cs ih =>
    simp only [List.all_cons, Bool.and_eq_true] at h
    simp [List.foldr_cons, ih h.2, splitStep, h.1]

lemma pySplit_of_whitespace (s : String) (h : s.data.all Char.isWhitespace = true) :
    pySplit s = [] := by
  unfold pySplit
  rw [foldr_splitStep_ws s.data h]
  rfl

lemma foldl_captureStep (lines : List String) :
    ∀ init, lines.foldl captureStep init = init ++ lines := by
  induction lines with
  | nil => intro init; simp
  | cons l ls ih => intro init; simp [captureStep, ih, List.append_assoc]

lemma captureRun_eq (lines : List String) : captureRun lines = lines := by
  simp [captureRun, foldl_captureStep]

lemma fileAfter_eq (lines : List String) (i : Nat) : fileAfter lines i = lines.take i := by
  simp [fileAfter, foldl_captureStep]

lemma rolesOf_append (ts us : List Turn) : rolesOf (ts ++ us) = rolesOf ts ++ rolesOf us := by
  simp [rolesOf]

/-- The role-shape invariant maintained at the top of each loop cycle: the
objective turn followed by one oracle and one requester turn per executed
action. -/
def wfRoles (st : LoopState) : Prop :=
  rolesOf st.turns =
    Role.requester :: (List.replicate st.executedCount [Role.oracle, Role.requester]).flatten

lemma wfRoles_init (objective : String) : wfRoles (initState objective) := by
  simp [wfRoles, initState, rolesOf]

lemma rolesOf_oracleStep (st : LoopState) (response : String) :
    rolesOf (oracleStep st response).turns = rolesOf st.turns ++ [Role.oracle] := by
  simp [oracleStep, rolesOf_append, rolesOf]

lemma rolesOf_requesterStep (st : LoopState) (fileContent : String) :
    rolesOf (requesterStep st fileContent).turns = rolesOf st.turns ++ [Role.requester] := by
  simp [requesterStep, rolesOf_append, rolesOf]

lemma wfRoles_requesterStep (st : LoopState) (response fileContent : String) (h : wfRoles st) :
    wfRoles (requesterStep (oracleStep st response) fileContent) := by
  unfold wfRoles at h ⊢
  rw [rolesOf_requesterStep, rolesOf_oracleStep, h]
  simp only [requesterStep, oracleStep, List.replicate_succ', List.flatten_append,
    List.append_assoc, List.cons_append]
  simp

lemma runLoop_done_roles (script : List (String × List String)) :
    ∀ st : LoopState, wfRoles st → (runLoop script st).2 = true →
      rolesOf (runLoop script st).1.turns =
        Role.requester ::
          (List.replicate (runLoop script st).1.executedCount [Role.oracle, Role.requester]).flatten
          ++ [Role.oracle] := by
  induction script with
  | nil => intro st _hwf hdone; simp [runLoop] at hdone
  | cons entry rest ih =>
    intro st hwf hdone
    obtain ⟨response, out⟩ := entry
    by_cases hc : is_pen_test_complete response
    · simp only [runLoop, hc, if_true]
      rw [rolesOf_oracleStep, hwf]
      simp [oracleStep]
    · simp only [runLoop, hc, if_false] at hdone ⊢
      exact ih _ (wfRoles_requesterStep st response (String.join out) hwf) hdone

lemma visitedStates_pos (response : String) (out : List String)
    (rest : List (String × List String)) (st : LoopState)
    (hc : is_pen_test_complete response = true) :
    visitedStates ((response, out) :: rest) st = [st, oracleStep st response] := by
  simp [visitedStates, hc]

lemma visitedStates_neg (response : String) (out : List String)
    (rest : List (String × List String)) (st : LoopState)
    (hc : is_pen_test_complete response = false) :
    visitedStates ((response, out) :: rest) st =
      st :: oracleStep st response ::
        visitedStates rest (requesterStep (oracleStep st response) (String.join out)) := by
  simp [visitedStates, hc]

lemma runLoop_pos (response : String) (out : List String)
    (rest : List (String × List String)) (st : LoopState)
    (hc : is_pen_test_complete response = true) :
    runLoop ((response, out) :: rest) st = (oracleStep st response, true) := by
  simp [runLoop, hc]

lemma runLoop_neg (response : String) (out : List String)
    (rest : List (String × List String)) (st : LoopState)
    (hc : is_pen_test_complete response = false) :
    runLoop ((response, out) :: rest) st =
      runLoop rest (requesterStep (oracleStep st response) (String.join out)) := by
  simp [runLoop, hc]

lemma visited_outstanding (script : List (String × List String)) :
    ∀ st : LoopState, st.outstandingRuns = 1 →
      ∀ s ∈ visitedStates script st, s.outstandingRuns ≤ 1 := by
  induction script with
  | nil =>
    intro st h1 s hs
    simp [visitedStates] at hs
    subst hs
    omega
  | cons entry rest ih =>
    intro st h1 s hs
    obtain ⟨response, out⟩ := entry
    by_cases hc : is_pen_test_complete response
    · rw [visitedStates_pos response out rest st hc] at hs
      simp only [List.mem_cons, List.not_mem_nil, or_false] at hs
      rcases hs with hs | hs <;> subst hs
      · omega
      · simp [oracleStep]; omega
    · rw [visitedStates_neg response out rest st (by simpa using hc)] at hs
      simp only [List.mem_cons] at hs
      rcases hs with hs | hs | hs
      · subst hs; omega
      · subst hs; simp [oracleStep]; omega
      · exact ih _ (by simp [requesterStep, oracleStep, h1]) s hs

lemma runLoop_turns_mono (script : List (String × List String)) :
    ∀ st : LoopState, st.turns <+: (runLoop script st).1.turns := by
  induction script with
  | nil => intro st; exact List.prefix_refl _
  | cons entry rest ih =>
    intro st
    obtain ⟨response, out⟩ := entry
    by_cases hc : is_pen_test_complete response
    · rw [runLoop_pos response out rest st hc]
      exact ⟨[{ role := Role.oracle, content := response }], rfl⟩
    · rw [runLoop_neg response out rest st (by simpa using hc)]
      refine List.IsPrefix.trans ?_ (ih _)
      exact ⟨[{ role := Role.oracle, content := response },
              { role := Role.requester, content := String.join out }],
             by simp [requesterStep, oracleStep, List.append_assoc]⟩

lemma visited_turns_mono (script : List (String × List String)) :
    ∀ st : LoopState, ∀ s ∈ visitedStates script st,
      s.turns <+: (runLoop script st).1.turns := by
  induction script with
  | nil =>
    intro st s hs
    simp [visitedStates] at hs
    subst hs
    exact List.prefix_refl _
  | cons entry rest ih =>
    intro st s hs
    obtain ⟨response, out⟩ := entry
    by_cases hc : is_pen_test_complete response
    · rw [visitedStates_pos response out rest st hc] at hs
      rw [runLoop_pos response out rest st hc]
      simp only [List.mem_cons, List.not_mem_nil, or_false] at hs
      rcases hs with hs | hs <;> subst hs
      · exact ⟨[{ role := Role.oracle, content := response }], rfl⟩
      · exact List.prefix_refl _
    · rw [visitedStates_neg response out rest st (by simpa using hc)] at hs
      rw [runLoop_neg response out rest st (by simpa using hc)]
      simp only [List.mem_cons] at hs
      rcases hs with hs | hs | hs
      · subst hs
        refine List.IsPrefix.trans ?_ (runLoop_turns_mono rest _)
        exact ⟨[{ role := Role.oracle, content := response },
                { role := Role.requester, content := String.join out }],
               by simp [requesterStep, oracleStep, List.append_assoc]⟩
      · subst hs
        refine List.IsPrefix.trans ?_ (runLoop_turns_mono rest _)
        exact ⟨[{ role := Role.requester, content := String.join out }], rfl⟩
      · exact ih _ s hs

lemma noConsecOracle_cons_cons (a b : Role) (l : List Role) :
    noConsecOracle (a :: b :: l) =
      (!(a == Role.oracle && b == Role.oracle) && noConsecOracle (b :: l)) := rfl

lemma noConsec_pattern (n : Nat) :
    noConsecOracle (Role.requester ::
      (List.replicate n [Role.oracle, Role.requester]).flatten ++ [Role.oracle]) = true := by
  induction n with
  | zero => decide
  | succ n ih =>
    rw [List.replicate_succ]
    simp only [List.flatten_cons, List.cons_append, List.append_assoc]
    rw [noConsecOracle_cons_cons, noConsecOracle_cons_cons]
    simpa using ih

lemma flatten_replicate_pair_length (n : Nat) (a b : Role) :
    ((List.replicate n [a, b]).flatten).length = 2 * n := by
  induction n with
  | zero => rfl
  | succ n ih =>
    rw [List.replicate_succ, List.flatten_cons, List.length_append, ih]
    simp only [List.length_cons, List.length_nil]
    omega

lemma cycleTrace_started_eq (msg : String) (now : DateTime) (lines : List String) (c : Int)
    (hc : is_pen_test_complete msg = false) (base : String) (rest : List String)
    (hsp : pySplit msg = base :: rest) :
    cycleTrace msg now (LaunchOutcome.started lines c) =
      [Event.execCall msg,
       Event.artifactClosed (base ++ "_results_" ++ strftimeYmdHMS now ++ ".txt"),
       Event.artifactRead (base ++ "_results_" ++ strftimeYmdHMS now ++ ".txt"),
       Event.submitTurn (String.join (captureRun lines)), Event.startRun] := by
  unfold cycleTrace execute_command
  rw [hsp, if_neg (by simp [hc])]
  rfl

lemma cycleTrace_indexError_eq (msg : String) (now : DateTime) (launch : LaunchOutcome)
    (hc : is_pen_test_complete msg = false) (hsp : pySplit msg = []) :
    cycleTrace msg now launch = [Event.execCall msg, Event.execIndexError] := by
  unfold cycleTrace execute_command
  rw [hsp, if_neg (by simp [hc])]

/-- C1: a loop cycle given a proposed action string ends the loop (state Done,
no executor call, no run started) exactly when the string, stripped of
surrounding whitespace and lower-cased, equals the literal sentinel "done";
any other string causes exactly one execute_command invocation, and on the
normal path (leading token present, process started) the cycle ends by
starting the next run. -/
theorem sentinel_decides_cycle (msg : String) (now : DateTime) (lines : List String) (c : Int) :
    (cycleTrace msg now (LaunchOutcome.started lines c) = [Event.loopDone] ↔
      pyLower (pyStrip msg) = "done")
    ∧ (pyLower (pyStrip msg) ≠ "done" →
        countExec (cycleTrace msg now (LaunchOutcome.started lines c)) = 1
        ∧ Event.loopDone ∉ cycleTrace msg now (LaunchOutcome.started lines c))
    ∧ (pyLower (pyStrip msg) ≠ "done" → pySplit msg ≠ [] →
        countRun (cycleTrace msg now (LaunchOutcome.started lines c)) = 1
        ∧ (cycleTrace msg now (LaunchOutcome.started lines c)).getLast? =
            some Event.startRun) := by
  have hbeq : is_pen_test_complete msg = true ↔ pyLower (pyStrip msg) = "done" := by
    simp [is_pen_test_complete]
  by_cases hc : is_pen_test_complete msg
  · have hdone := hbeq.mp hc
    have htr : cycleTrace msg now (LaunchOutcome.started lines c) = [Event.loopDone] := by
      unfold cycleTrace
      rw [if_pos hc]
    exact ⟨⟨fun _ => hdone, fun _ => htr⟩,
           fun hne => absurd hdone hne,
           fun hne _ => absurd hdone hne⟩
  · have hcf : is_pen_test_complete msg = false := by simpa using hc
    have hne : pyLower (pyStrip msg) ≠ "done" := fun hh => hc (hbeq.mpr hh)
    cases hsp : pySplit msg with
    | nil =>
      rw [cycleTrace_indexError_eq msg now (LaunchOutcome.started lines c) hcf hsp]
      refine ⟨⟨fun habs => by simp at habs, fun hd => absurd hd hne⟩,
              fun _ => ⟨rfl, by simp⟩,
              fun _ hsp2 => absurd rfl hsp2⟩
    | cons base rest =>
      rw [cycleTrace_started_eq msg now lines c hcf base rest hsp]
      refine ⟨⟨fun habs => by simp at habs, fun hd => absurd hd hne⟩,
              fun _ => ⟨rfl, by simp⟩,
              fun _ _ => ⟨rfl, rfl⟩⟩

/-- C1 witness: a concrete non-sentinel action gives one executor call
followed by a run start; the concrete sentinel ends the cycle. -/
theorem sentinel_decides_cycle_witness :
    (pyLower (pyStrip "ls -la") ≠ "done"
      ∧ countExec (cycleTrace "ls -la" dt0 (LaunchOutcome.started ["total 0"] 0)) = 1
      ∧ countRun (cycleTrace "ls -la" dt0 (LaunchOutcome.started ["total 0"] 0)) = 1)
    ∧ cycleTrace " Done " dt0 (LaunchOutcome.started [] 0) = [Event.loopDone] := by
  have hne : pyLower (pyStrip "ls -la") ≠ "done" := by decide
  have h1 := sentinel_decides_cycle "ls -la" dt0 ["total 0"] 0
  have h2 := sentinel_decides_cycle " Done " dt0 [] 0
  exact ⟨⟨hne, (h1.2.1 hne).1, (h1.2.2 hne (by decide)).1⟩, h2.1.mpr (by decide)⟩

/-- C2: refuted by the code (code bug).  The inner polling loop of src/main.py
lines 152-159 breaks only on the literal status "completed".  A run whose
polled status is the terminal "failed" never satisfies the break condition, so
the loop keeps sleeping and polling forever: no amount of fuel makes it stop,
and no RunFailed error is ever surfaced to the orchestrator. -/
theorem failed_status_polls_forever :
    pollBreaks "failed" = false
    ∧ ∀ (fuel i : Nat), pollLoop (fun _ => "failed") fuel i = none := by
  refine ⟨by decide, ?_⟩
  intro fuel
  induction fuel with
  | zero => intro i; rfl
  | succ fuel ih =>
    intro i
    show (if pollBreaks "failed" then some i
          else pollLoop (fun _ => "failed") fuel (i + 1)) = none
    rw [if_neg (by decide : ¬ (pollBreaks "failed" = true))]
    exact ih (i + 1)

/-- C3: refuted by the code (code bug).  When the run status is "completed"
but the filtered assistant-response list is empty (here: a thread that holds
only the initial user message), the completed branch of src/main.py lines
154-158 breaks out of the polling loop without assigning message_content and
without signalling any error: on the first cycle the binding stays none (a
NameError when line 161 reads it), on later cycles the stale previous text is
reused.  No NoResponseContent error exists anywhere in the codomain. -/
theorem completed_empty_responses_no_error :
    get_assistant_responses
        [{ assistant_id := none, text := "Start a penetration test on this machine 10.0.0.5." }]
        "asst_1" = []
    ∧ completedBranch [] none = none
    ∧ completedBranch [] (some "nmap 10.0.0.5") = some "nmap 10.0.0.5" := by
  exact ⟨by decide, rfl, rfl⟩

/-- C4: refuted by the code (code bug).  When the process-creation call itself
fails, the with statement of src/main.py line 126 never reaches the open call,
so no artifact file is created, yet line 138 still returns the artifact name;
back in main, line 166 then opens that nonexistent file and the cycle dies on
an uncaught FileNotFoundError instead of submitting failure text and
continuing. -/
theorem launch_failure_dangling_handle :
    execute_command "nmap -sV 10.0.0.5" dt0 LaunchOutcome.launchFailed =
      ExecOutcome.returned
        { filename := "nmap_results_20240102_030405.txt", artifactCreated := false,
          artifactLines := [] }
    ∧ cycleTrace "nmap -sV 10.0.0.5" dt0 LaunchOutcome.launchFailed =
        [Event.execCall "nmap -sV 10.0.0.5",
         Event.readFailed "nmap_results_20240102_030405.txt"] := by
  exact ⟨by decide, by decide⟩

/-- C5: on the normal path (nonempty leading token, process started) the
returned value of execute_command is the artifact handle and is literally
independent of the exit code of the child process: exchanging any two exit
codes leaves the result unchanged, and the result is always a returned
handle, never an error. -/
theorem exit_code_not_part_of_contract (cmd : String) (now : DateTime)
    (lines : List String) (c c' : Int) (h : pySplit cmd ≠ []) :
    execute_command cmd now (LaunchOutcome.started lines c) =
      execute_command cmd now (LaunchOutcome.started lines c')
    ∧ ∃ r, execute_command cmd now (LaunchOutcome.started lines c) =
        ExecOutcome.returned r := by
  cases hsp : pySplit cmd with
  | nil => exact absurd hsp h
  | cons base rest =>
    unfold execute_command
    rw [hsp]
    exact ⟨rfl, ⟨_, rfl⟩⟩

/-- C5 witness at a concrete command with exit codes 0 and 127. -/
theorem exit_code_not_part_of_contract_witness :
    execute_command "ls -la" dt0 (LaunchOutcome.started ["total 0"] 0) =
      execute_command "ls -la" dt0 (LaunchOutcome.started ["total 0"] 127)
    ∧ ∃ r, execute_command "ls -la" dt0 (LaunchOutcome.started ["total 0"] 0) =
        ExecOutcome.returned r :=
  exit_code_not_part_of_contract "ls -la" dt0 ["total 0"] 0 127 (by decide)

/-- C6: the artifact filename is exactly the leading whitespace-delimited
token of the action, then the literal "_results_", then the strftime
timestamp, then ".txt"; and for capture times with in-range fields the
timestamp is eight decimal digits, an underscore, and six decimal digits
(YYYYMMDD_HHMMSS). -/
theorem artifact_name_scheme (cmd base : String) (rest : List String)
    (now : DateTime) (launch : LaunchOutcome)
    (hsplit : pySplit cmd = base :: rest)
    (hy1 : 1000 ≤ now.year) (hy2 : now.year < 10000)
    (hmo : now.month < 100) (hd : now.day < 100)
    (hh : now.hour < 100) (hmi : now.minute < 100) (hsec : now.second < 100) :
    (∃ r, execute_command cmd now launch = ExecOutcome.returned r
       ∧ r.filename = base ++ "_results_" ++ strftimeYmdHMS now ++ ".txt")
    ∧ ∃ dateS timeS, strftimeYmdHMS now = dateS ++ "_" ++ timeS
        ∧ dateS.length = 8 ∧ timeS.length = 6
        ∧ dateS.data.all Char.isDigit = true ∧ timeS.data.all Char.isDigit = true := by
  constructor
  · unfold execute_command
    rw [hsplit]
    cases launch with
    | started lines c => exact ⟨_, rfl, rfl⟩
    | launchFailed => exact ⟨_, rfl, rfl⟩
  · obtain ⟨hy, hyd⟩ := pad4_shape now.year hy1 hy2
    obtain ⟨hm1, hm2⟩ := pad2_shape now.month hmo
    obtain ⟨hd1, hd2⟩ := pad2_shape now.day hd
    obtain ⟨hh1, hh2⟩ := pad2_shape now.hour hh
    obtain ⟨hmi1, hmi2⟩ := pad2_shape now.minute hmi
    obtain ⟨hs1, hs2⟩ := pad2_shape now.second hsec
    refine ⟨pad4 now.year ++ pad2 now.month ++ pad2 now.day,
            pad2 now.hour ++ pad2 now.minute ++ pad2 now.second, ?_, ?_, ?_, ?_, ?_⟩
    · unfold strftimeYmdHMS
      simp [String.append_assoc]
    · simp [String.length_append, hy, hm1, hd1]
    · simp [String.length_append, hh1, hmi1, hs1]
    · simp only [String.data_append, List.all_append, Bool.and_eq_true]
      exact ⟨⟨hyd, hm2⟩, hd2⟩
    · simp only [String.data_append, List.all_append, Bool.and_eq_true]
      exact ⟨⟨hh2, hmi2⟩, hs2⟩

/-- C6 witness at a concrete command and capture time. -/
theorem artifact_name_scheme_witness :
    (∃ r, execute_command "echo hello" dt0 (LaunchOutcome.started ["hello"] 0) =
        ExecOutcome.returned r
      ∧ r.filename = "echo" ++ "_results_" ++ strftimeYmdHMS dt0 ++ ".txt")
    ∧ ∃ dateS timeS, strftimeYmdHMS dt0 = dateS ++ "_" ++ timeS
        ∧ dateS.length = 8 ∧ timeS.length = 6
        ∧ dateS.data.all Char.isDigit = true ∧ timeS.data.all Char.isDigit = true :=
  artifact_name_scheme "echo hello" "echo" ["hello"] dt0 (LaunchOutcome.started ["hello"] 0)
    (by decide) (by decide) (by decide) (by decide) (by decide) (by decide) (by decide)
    (by decide)

/-- C7: for a started process producing merged-stream lines L1..Lk, the
artifact holds exactly those lines in that order, and after any number i of
arrived lines the file already holds exactly the first i lines (incremental
persistence, not buffered until exit). -/
theorem output_capture_order (cmd : String) (now : DateTime) (lines : List String)
    (c : Int) (h : pySplit cmd ≠ []) :
    (∃ r, execute_command cmd now (LaunchOutcome.started lines c) = ExecOutcome.returned r
       ∧ r.artifactLines = lines)
    ∧ ∀ i, fileAfter lines i = lines.take i := by
  constructor
  · cases hsp : pySplit cmd with
    | nil => exact absurd hsp h
    | cons base rest =>
      refine ⟨⟨base ++ "_results_" ++ strftimeYmdHMS now ++ ".txt", true, captureRun lines⟩,
        ?_, captureRun_eq lines⟩
      unfold execute_command
      rw [hsp]
  · exact fun i => fileAfter_eq lines i

/-- C7 witness at a concrete command and output stream. -/
theorem output_capture_order_witness :
    (∃ r, execute_command "ping -c 2 10.0.0.5" dt0
          (LaunchOutcome.started ["64 bytes", "64 bytes", "2 received"] 0) =
        ExecOutcome.returned r
      ∧ r.artifactLines = ["64 bytes", "64 bytes", "2 received"])
    ∧ ∀ i, fileAfter ["64 bytes", "64 bytes", "2 received"] i =
        (["64 bytes", "64 bytes", "2 received"] : List String).take i :=
  output_capture_order "ping -c 2 10.0.0.5" dt0 ["64 bytes", "64 bytes", "2 received"] 0
    (by decide)

/-- C8: in a non-terminal cycle on the normal path, the cycle event list shows
the artifact being closed strictly before it is read back and its content
submitted; and across the whole loop the turn list only ever grows by
appending, so every intermediate turn list is a prefix of the final one
(turns are applied in strict submission order). -/
theorem artifact_flushed_before_read (msg : String) (now : DateTime) (lines : List String)
    (c : Int) (h1 : is_pen_test_complete msg = false) (h2 : pySplit msg ≠ []) :
    (∃ f content,
        cycleTrace msg now (LaunchOutcome.started lines c) =
          [Event.execCall msg, Event.artifactClosed f, Event.artifactRead f,
           Event.submitTurn content, Event.startRun])
    ∧ ∀ script st, ∀ s ∈ visitedStates script st, s.turns <+: (runLoop script st).1.turns := by
  constructor
  · cases hsp : pySplit msg with
    | nil => exact absurd hsp h2
    | cons base rest =>
      exact ⟨_, _, cycleTrace_started_eq msg now lines c h1 base rest hsp⟩
  · exact fun script st => visited_turns_mono script st

/-- C8 witness at a concrete cycle. -/
theorem artifact_flushed_before_read_witness :
    ∃ f content,
      cycleTrace "echo hi" dt0 (LaunchOutcome.started ["hi"] 0) =
        [Event.execCall "echo hi", Event.artifactClosed f, Event.artifactRead f,
         Event.submitTurn content, Event.startRun] :=
  (artifact_flushed_before_read "echo hi" dt0 ["hi"] 0 (by decide) (by decide)).1

/-- C9: whenever the loop terminates through the sentinel after N executed
actions, the turn list is the objective turn followed by N oracle/requester
pairs and the terminal oracle turn, hence 2N+1 turns before the terminal
turn, with no two adjacent oracle turns; and every state the loop passes
through has at most one outstanding run. -/
theorem task_turn_alternation (objective : String) (script : List (String × List String))
    (hdone : (runLoop script (initState objective)).2 = true) :
    rolesOf (runLoop script (initState objective)).1.turns =
      Role.requester ::
        (List.replicate (runLoop script (initState objective)).1.executedCount
          [Role.oracle, Role.requester]).flatten ++ [Role.oracle]
    ∧ (runLoop script (initState objective)).1.turns.dropLast.length =
        2 * (runLoop script (initState objective)).1.executedCount + 1
    ∧ noConsecOracle (rolesOf (runLoop script (initState objective)).1.turns) = true
    ∧ ∀ s ∈ visitedStates script (initState objective), s.outstandingRuns ≤ 1 := by
  have hroles := runLoop_done_roles script (initState objective) (wfRoles_init objective) hdone
  refine ⟨hroles, ?_, ?_, visited_outstanding script (initState objective) rfl ⟩
  · have hlen : (runLoop script (initState objective)).1.turns.length =
        2 * (runLoop script (initState objective)).1.executedCount + 2 := by
      have hmap := congrArg List.length hroles
      rw [rolesOf, List.length_map] at hmap
      rw [hmap]
      simp [List.length_append, flatten_replicate_pair_length]
      omega
    rw [List.length_dropLast, hlen]
    omega
  · rw [hroles]
    exact noConsec_pattern _

/-- C9 witness: a concrete two-cycle script (one action, then the sentinel). -/
theorem task_turn_alternation_witness :
    noConsecOracle
        (rolesOf (runLoop [("ls -la", ["total 0"]), ("Done", [])] (initState "begin")).1.turns)
      = true
    ∧ (runLoop [("ls -la", ["total 0"]), ("Done", [])] (initState "begin")).1.turns.dropLast.length =
        2 * (runLoop [("ls -la", ["total 0"]), ("Done", [])]
              (initState "begin")).1.executedCount + 1 := by
  have h := task_turn_alternation "begin" [("ls -la", ["total 0"]), ("Done", [])] (by decide)
  exact ⟨h.2.2.1, h.2.1⟩

/-- C10: an action string that is empty or all whitespace makes
execute_command die on the uncaught IndexError of command.split()[0], before
the try block: no artifact exists and no handle is ever returned. -/
theorem whitespace_action_uncaught_index_error (cmd : String) (now : DateTime)
    (launch : LaunchOutcome) (h : cmd.data.all Char.isWhitespace = true) :
    execute_command cmd now launch = ExecOutcome.indexError
    ∧ ∀ r, execute_command cmd now launch ≠ ExecOutcome.returned r := by
  have hsp := pySplit_of_whitespace cmd h
  unfold execute_command
  rw [hsp]
  exact ⟨rfl, fun r hr => by cases hr⟩

/-- C10 witness at the concrete whitespace-only action string. -/
theorem whitespace_action_uncaught_index_error_witness :
    execute_command "   " dt0 (LaunchOutcome.started [] 0) = ExecOutcome.indexError
    ∧ ∀ r, execute_command "   " dt0 (LaunchOutcome.started [] 0) ≠ ExecOutcome.returned r :=
  whitespace_action_uncaught_index_error "   " dt0 (LaunchOutcome.started [] 0) (by decide)

end IntrusionNet
